import Mathlib

/-!
Shallow embedding of the analyst-action normalization pipeline of the
`analyst-ratings` repository: `process_actions_for_display`,
`fetch_all_analyst_actions` and the combined 24-hour tab of
`streamlit_app.py`, and `get_analyst_actions` plus the e-mail column layout
of `digest_bot.py`.

Tabular data is modelled as a list of column names together with a list of
rows; a raw (indexed) pandas frame additionally carries its index column.
Cell values are `null` (NaN/None), strings, floats, or timestamps.  Floats
are modelled exactly as the dyadic rationals `m / 2^e` that IEEE doubles
denote.  Timestamps are calendar field records; `strftime` renders fields,
so no calendar arithmetic is needed.
-/

/-- Calendar fields of a pandas `Timestamp`, as consumed by `strftime`
(`%Y`, `%m`, `%d`, `%H`, `%M`).  Fields are calendar-bounded
(`month ≤ 12`, `day ≤ 31`, `hour < 24`, `minute < 60`) for timestamps that
arise from real data. -/
structure Timestamp where
  year : Nat
  month : Nat
  day : Nat
  hour : Nat
  minute : Nat
deriving DecidableEq

/-- A cell value of a pandas frame: `null` is NaN/None, `num m e` is the
IEEE double with exact value `m / 2^e`. -/
inductive Val where
  | null
  | str (s : String)
  | num (m : Int) (e : Nat)
  | time (t : Timestamp)
deriving DecidableEq

/-- A pandas `DataFrame` after `reset_index`: named columns and rows of
cells (each row aligned with `cols`). -/
structure Frame where
  cols : List String
  rows : List (List Val)
deriving DecidableEq

/-- `pd.DataFrame()`. -/
def Frame.emptyFrame : Frame := ⟨[], []⟩

/-- `df.empty`: true when either axis has length zero. -/
def Frame.isEmpty (f : Frame) : Bool := f.cols.isEmpty || f.rows.isEmpty

/-- A raw `DataFrame` as returned by `ticker.upgrades_downgrades`: a named
(timestamp) index plus named data columns; each row carries its index
value. -/
structure RawFrame where
  indexName : String
  cols : List String
  rows : List (Val × List Val)
deriving DecidableEq

/-- An empty raw frame (`pd.DataFrame()`). -/
def RawFrame.emptyFrame : RawFrame := ⟨"", [], []⟩

/-- `df.empty` for an indexed frame. -/
def RawFrame.isEmpty (rf : RawFrame) : Bool := rf.cols.isEmpty || rf.rows.isEmpty

/-- `df.reset_index()`: the index becomes the first column. -/
def RawFrame.resetIndex (rf : RawFrame) : Frame :=
  ⟨rf.indexName :: rf.cols, rf.rows.map (fun r => r.1 :: r.2)⟩

/-- The caller-side window filter `actions[actions.index >= cutoff]`,
with the cutoff comparison abstracted as a predicate on index values. -/
def filterRecent (keep : Val → Bool) (rf : RawFrame) : RawFrame :=
  ⟨rf.indexName, rf.cols, rf.rows.filter (fun r => keep r.1)⟩

/-- Python `str.lower()` on a column name (ASCII data). -/
def lowerChars (s : String) : List Char := s.data.map Char.toLower

/-- Python `pat in s` substring test on character lists. -/
def hasSub (pat : List Char) : List Char → Bool
  | [] => pat.isEmpty
  | c :: t => pat.isPrefixOf (c :: t) || hasSub pat t

/-- `pat in str(col).lower()` for an (already lower-case) pattern. -/
def containsLower (col : String) (pat : String) : Bool :=
  hasSub pat.data (lowerChars col)

/-- The column-classification chain of `process_actions_for_display`
(`streamlit_app.py` lines 108-127): position `i` and name `col` of an
input column yield the canonical column name, first matching rule wins. -/
def canonColName (i : Nat) (col : String) : String :=
  if i == 0 || containsLower col "date" || containsLower col "index" then "Date"
  else if containsLower col "firm" then "Firm"
  else if containsLower col "tograde" || col == "ToGrade" then "To Grade"
  else if containsLower col "fromgrade" || col == "FromGrade" then "From Grade"
  else if containsLower col "action" && !(containsLower col "price") then "Action"
  else if containsLower col "pricetargetaction" || col == "PriceTargetAction" then
    "Price Target Action"
  else if containsLower col "currentpricetarget" || col == "CurrentPriceTarget" then
    "Current Price Target"
  else if containsLower col "priorpricetarget" || col == "PriorPriceTarget" then
    "Prior Price Target"
  else col

/-- The column-classification chain of the combined 24-hour tab
(`streamlit_app.py` lines 286-307); `c1` is the name of column 1 of the
combined frame (`display_df.columns[1]`). -/
def canonColName24 (c1 : String) (col : String) : String :=
  if col == "Symbol" then "Symbol"
  else if containsLower col "date" || containsLower col "index" || col == c1 then "Date"
  else if containsLower col "firm" then "Firm"
  else if containsLower col "tograde" || col == "ToGrade" then "To Grade"
  else if containsLower col "fromgrade" || col == "FromGrade" then "From Grade"
  else if containsLower col "action" && !(containsLower col "price") then "Action"
  else if containsLower col "pricetargetaction" || col == "PriceTargetAction" then
    "Price Target Action"
  else if containsLower col "currentpricetarget" || col == "CurrentPriceTarget" then
    "Current Price Target"
  else if containsLower col "priorpricetarget" || col == "PriorPriceTarget" then
    "Prior Price Target"
  else col

/-- `action_map` of `streamlit_app.py` lines 137-143 / `digest_bot.py`
line 41, as the partial lookup a Python dict denotes. -/
def actionMap (s : String) : Option String :=
  if s == "main" then some "Maintains"
  else if s == "up" then some "Upgrade"
  else if s == "down" then some "Downgrade"
  else if s == "init" then some "Initiates"
  else if s == "reit" then some "Reiterates"
  else none

/-- `pt_action_map` of `streamlit_app.py` lines 148-154 / `digest_bot.py`
line 46. -/
def ptActionMap (s : String) : Option String :=
  if s == "up" then some "Raises"
  else if s == "down" then some "Lowers"
  else if s == "init" then some "Announces"
  else if s == "main" then some "Maintains"
  else if s == "reit" then some "Reiterates"
  else none

/-- `series.map(codeMap).fillna(series)`: a string key found in the dict is
replaced by its label; any other value (unknown code, null, non-string)
maps to NaN and `fillna` restores the original value. -/
def applyCodeMap (m : String → Option String) (v : Val) : Val :=
  match v with
  | .str s =>
    match m s with
    | some label => .str label
    | none => v
  | _ => v

/-- Python `"%02d"`-style padding used by `strftime`. -/
def pad2 (n : Nat) : String := if n < 10 then "0" ++ toString n else toString n

/-- Python `"%04d"`-style padding used by `strftime` for `%Y`. -/
def pad4 (n : Nat) : String :=
  if n < 10 then "000" ++ toString n
  else if n < 100 then "00" ++ toString n
  else if n < 1000 then "0" ++ toString n
  else toString n

/-- `strftime('%Y-%m-%d')`. -/
def fmtDay (t : Timestamp) : String :=
  pad4 t.year ++ "-" ++ pad2 t.month ++ "-" ++ pad2 t.day

/-- `strftime('%Y-%m-%d %H:%M')`. -/
def fmtMinute (t : Timestamp) : String :=
  fmtDay t ++ " " ++ pad2 t.hour ++ ":" ++ pad2 t.minute

/-- `pd.to_datetime(col).dt.strftime(fmt)` on one cell: a timestamp cell is
rendered with `fmt`; any other cell fails to parse, which aborts the batch
(modelled as `none`). -/
def toDatetime (fmt : Timestamp → String) (v : Val) : Option Val :=
  match v with
  | .time t => some (.str (fmt t))
  | _ => none

/-- Exact cents of the dyadic float `m / 2^e` under round-half-even, which
is what Python `f"{x:.2f}"` computes on the exact value of a double. -/
def centsOf (m : Int) (e : Nat) : Int :=
  let numer : Int := 100 * m
  let denom : Int := 2 ^ e
  let q := numer.fdiv denom
  let r := numer.fmod denom
  if 2 * r < denom then q
  else if denom < 2 * r then q + 1
  else if q % 2 = 0 then q else q + 1

/-- Renders a non-negative number of cents as `intpart.dd`. -/
def centsRender (n : Nat) : String := toString (n / 100) ++ "." ++ pad2 (n % 100)

/-- Python `f"{x:.2f}"` on the double `m / 2^e`. -/
def floatFmt2 (m : Int) (e : Nat) : String :=
  let c := centsOf m e
  if c < 0 then "-" ++ centsRender c.natAbs else centsRender c.natAbs

/-- The price-target cell formatter
`lambda x: f"${x:.2f}" if pd.notnull(x) and x != '' else 'N/A'`:
null and empty-string cells become `"N/A"`; a float becomes a dollar
string; applying the float format spec to any other value raises
(modelled as `none`). -/
def formatPrice (v : Val) : Option Val :=
  match v with
  | .null => some (.str "N/A")
  | .str s => if s == "" then some (.str "N/A") else none
  | .num m e => some (.str ("$" ++ floatFmt2 m e))
  | .time _ => none

/-- First index of a name in a column list. -/
def idxOf? (name : String) : List String → Option Nat
  | [] => none
  | c :: t => if c == name then some 0 else (idxOf? name t).map (· + 1)

/-- Index of a named column (`df.columns` lookup, first match). -/
def colIdx (f : Frame) (name : String) : Option Nat := idxOf? name f.cols

/-- Option-valued map over a list, failing when any element fails. -/
def mapOpt (g : α → Option β) : List α → Option (List β)
  | [] => some []
  | a :: t =>
    match g a, mapOpt g t with
    | some b, some t' => some (b :: t')
    | _, _ => none

/-- `if name in df.columns: df[name] = df[name].apply(g)` for a total
cell transformation. -/
def mapColIf (f : Frame) (name : String) (g : Val → Val) : Frame :=
  match colIdx f name with
  | none => f
  | some j => ⟨f.cols, f.rows.map (fun r => r.set j (g (r.getD j .null)))⟩

/-- `if name in df.columns: df[name] = df[name].apply(g)` for a cell
transformation that can raise. -/
def mapColOptIf (f : Frame) (name : String) (g : Val → Option Val) : Option Frame :=
  match colIdx f name with
  | none => some f
  | some j =>
    (mapOpt (fun r => (g (r.getD j .null)).map (fun v => r.set j v)) f.rows).map
      (fun rows => ⟨f.cols, rows⟩)

/-- `df[name] = df[name].apply(g)` without a presence guard: a missing
column raises `KeyError` (modelled as `none`). -/
def mapColReq (f : Frame) (name : String) (g : Val → Option Val) : Option Frame :=
  match colIdx f name with
  | none => none
  | some j =>
    (mapOpt (fun r => (g (r.getD j .null)).map (fun v => r.set j v)) f.rows).map
      (fun rows => ⟨f.cols, rows⟩)

/-- `df[[c for c in names if c in df.columns]]`. -/
def selectCols (f : Frame) (names : List String) : Frame :=
  let keep := names.filter (fun n => f.cols.contains n)
  ⟨keep,
   f.rows.map (fun r =>
     keep.map (fun n =>
       match colIdx f n with
       | some j => r.getD j .null
       | none => .null))⟩

/-- `column_order` of `process_actions_for_display`
(`streamlit_app.py` lines 168-169). -/
def columnOrder : List String :=
  ["Date", "Firm", "Action", "To Grade", "From Grade",
   "Price Target Action", "Current Price Target", "Prior Price Target"]

/-- `column_order` of the combined 24-hour tab
(`streamlit_app.py` lines 348-349). -/
def columnOrder24 : List String := "Symbol" :: columnOrder

/-- The field order in which `create_html_email` of `digest_bot.py`
renders each row (`row.get` calls, lines 77-85). -/
def emailFields : List String :=
  ["Symbol", "Date", "Firm", "Action", "To Grade", "From Grade",
   "Price Target Action", "Current Price Target", "Prior Price Target"]

/-- The column renaming pass of `process_actions_for_display`. -/
def renameCols (f : Frame) : Frame :=
  ⟨f.cols.enum.map (fun p => canonColName p.1 p.2), f.rows⟩

/-- The column renaming pass of the combined 24-hour tab. -/
def renameCols24 (f : Frame) : Frame :=
  let c1 := f.cols.getD 1 ""
  ⟨f.cols.map (canonColName24 c1), f.rows⟩

/-- `process_actions_for_display(df_actions, date_format)`
(`streamlit_app.py` lines 99-172). -/
def process_actions_for_display (df_actions : RawFrame)
    (date_format : Timestamp → String) : Option Frame :=
  if df_actions.isEmpty then some Frame.emptyFrame
  else
    let f1 := renameCols df_actions.resetIndex
    (mapColOptIf f1 "Date" (toDatetime date_format)).bind (fun f2 =>
      let f3 := mapColIf f2 "Action" (applyCodeMap actionMap)
      let f4 := mapColIf f3 "Price Target Action" (applyCodeMap ptActionMap)
      (mapColOptIf f4 "Current Price Target" formatPrice).bind (fun f5 =>
        (mapColOptIf f5 "Prior Price Target" formatPrice).map (fun f6 =>
          selectCols f6 columnOrder)))

/-- Code-point string comparison on character lists (Python `<=` on str). -/
def lexLe : List Char → List Char → Bool
  | [], _ => true
  | _ :: _, [] => false
  | a :: s, b :: t =>
    if a.val < b.val then true
    else if b.val < a.val then false
    else lexLe s t

/-- Python string `<=`. -/
def strLe (a b : String) : Bool := lexLe a.data b.data

/-- Sort key of a formatted `Date` cell (always a string at sort time). -/
def dateKey (v : Val) : String :=
  match v with
  | .str s => s
  | _ => ""

/-- Sort key of a row: its `Date` cell as a string. -/
def rowKey (j : Nat) (r : List Val) : String := dateKey (r.getD j .null)

/-- Row `r` sorts no later than row `s` in descending `Date` order. -/
def rowGe (j : Nat) (r s : List Val) : Bool :=
  strLe (rowKey j s) (rowKey j r)

/-- Insertion step of the descending sort by the `Date` column. -/
def insertRowDesc (j : Nat) (r : List Val) : List (List Val) → List (List Val)
  | [] => [r]
  | s :: t => if rowGe j r s then r :: s :: t else s :: insertRowDesc j r t

/-- `df.sort_values('Date', ascending=False)` row rearrangement. -/
def sortRowsDesc (j : Nat) : List (List Val) → List (List Val)
  | [] => []
  | r :: t => insertRowDesc j r (sortRowsDesc j t)

/-- `df.sort_values('Date', ascending=False).reset_index(drop=True)`; a
missing `Date` column raises `KeyError` (modelled as `none`). -/
def sortByDateDesc (f : Frame) : Option Frame :=
  match colIdx f "Date" with
  | none => none
  | some j => some ⟨f.cols, sortRowsDesc j f.rows⟩

/-- `recent.reset_index()` followed by `insert(0, 'Symbol', sym)`. -/
def withSymbol (sym : String) (rf : RawFrame) : Frame :=
  let f := rf.resetIndex
  ⟨"Symbol" :: f.cols, f.rows.map (fun r => Val.str sym :: r)⟩

/-- `pd.concat(frames, ignore_index=True)` for same-schema frames. -/
def concatFrames (l : List Frame) : Frame :=
  ⟨(l.headD Frame.emptyFrame).cols, (l.map Frame.rows).flatten⟩

/-- The processing applied to the combined frame in the 24-hour tab
(`streamlit_app.py` lines 282-353): rename, format, select, then sort by
`Date` descending. -/
def processCombined24h (combined : Frame) : Option Frame :=
  let f1 := renameCols24 combined
  (mapColOptIf f1 "Date" (toDatetime fmtMinute)).bind (fun f2 =>
    let f3 := mapColIf f2 "Action" (applyCodeMap actionMap)
    let f4 := mapColIf f3 "Price Target Action" (applyCodeMap ptActionMap)
    (mapColOptIf f4 "Current Price Target" formatPrice).bind (fun f5 =>
      (mapColOptIf f5 "Prior Price Target" formatPrice).bind (fun f6 =>
        sortByDateDesc (selectCols f6 columnOrder24))))

/-- Per-symbol entry of `fetch_all_analyst_actions`. -/
structure SymbolData where
  company_name : String
  actions : RawFrame
  error : Option String
deriving DecidableEq

/-- `fetch_all_analyst_actions(symbols)` (`streamlit_app.py` lines 75-97),
with each symbol's fetch outcome made explicit: `.ok (name, acts)` is a
successful fetch of the company name and `upgrades_downgrades` (which may
be `None`), `.error e` is a raised exception with message `e`.  A failure
is caught and recorded as an empty frame plus the error message; the loop
continues with the remaining symbols. -/
def fetch_all_analyst_actions
    (outcomes : List (String × Except String (String × Option RawFrame))) :
    List (String × SymbolData) :=
  outcomes.map (fun p =>
    match p.2 with
    | .ok (nm, acts) => (p.1, ⟨nm, acts.getD RawFrame.emptyFrame, none⟩)
    | .error _e => (p.1, ⟨p.1, RawFrame.emptyFrame, some _e⟩))

/-- The per-symbol collection loop of the 24-hour tab
(`streamlit_app.py` lines 261-275) over the fetched data. -/
def collect24h (keep : Val → Bool) (allData : List (String × SymbolData)) :
    List Frame :=
  (allData.map (fun p =>
    if p.2.actions.isEmpty then []
    else
      let recent := filterRecent keep p.2.actions
      if recent.isEmpty then [] else [withSymbol p.1 recent])).flatten

/-- The full combined 24-hour table: `None` when no table is rendered
(no recent actions, or processing raised). -/
def tab3Table (keep : Val → Bool) (allData : List (String × SymbolData)) :
    Option Frame :=
  let l := collect24h keep allData
  if l.isEmpty then none
  else processCombined24h (concatFrames l)

/-- The positional column names assigned in `get_analyst_actions`
(`digest_bot.py` lines 36-37). -/
def digestNames : List String :=
  ["Symbol", "Date", "Firm", "To Grade", "From Grade", "Action",
   "Price Target Action", "Current Price Target", "Prior Price Target"]

/-- `combined.columns = digestNames[:len(combined.columns)]`: with more
than nine columns the length-mismatch assignment raises (`none`). -/
def digestRename (f : Frame) : Option Frame :=
  if f.cols.length ≤ 9 then some ⟨digestNames.take f.cols.length, f.rows⟩ else none

/-- The per-symbol collection loop of `get_analyst_actions`
(`digest_bot.py` lines 18-30): an exception is caught and logged, and the
loop moves on, appending nothing for the failed symbol. -/
def digestCollect (keep : Val → Bool)
    (outcomes : List (String × Except String (Option RawFrame))) : List Frame :=
  (outcomes.map (fun p =>
    match p.2 with
    | .error _ => []
    | .ok none => []
    | .ok (some actions) =>
      if actions.isEmpty then []
      else
        let recent := filterRecent keep actions
        if recent.isEmpty then [] else [withSymbol p.1 recent])).flatten

/-- Lines 32-54 of `digest_bot.py` applied to the collected per-symbol
frames: early-return an empty frame for an empty collection, otherwise
concatenate, rename positionally, format, and sort by `Date` descending. -/
def digestAssemble (all_actions : List Frame) : Option Frame :=
  if all_actions.isEmpty then some Frame.emptyFrame
  else
    (digestRename (concatFrames all_actions)).bind (fun f1 =>
      (mapColReq f1 "Date" (toDatetime fmtMinute)).bind (fun f2 =>
        let f3 := mapColIf f2 "Action" (applyCodeMap actionMap)
        let f4 := mapColIf f3 "Price Target Action" (applyCodeMap ptActionMap)
        (mapColOptIf f4 "Current Price Target" formatPrice).bind (fun f5 =>
          (mapColOptIf f5 "Prior Price Target" formatPrice).bind (fun f6 =>
            sortByDateDesc f6))))

/-- `get_analyst_actions()` (`digest_bot.py` lines 13-54) over explicit
per-symbol fetch outcomes. -/
def get_analyst_actions (keep : Val → Bool)
    (outcomes : List (String × Except String (Option RawFrame))) : Option Frame :=
  digestAssemble (digestCollect keep outcomes)

/-- The `Date` column of a frame as a list of strings, in row order. -/
def dateStrings (f : Frame) : List String :=
  match colIdx f "Date" with
  | none => []
  | some j => f.rows.map (rowKey j)

/-- A list of strings is in non-increasing (descending) order. -/
def sortedDescBool : List String → Bool
  | [] => true
  | [_] => true
  | a :: b :: t => strLe b a && sortedDescBool (b :: t)

/-- The string an index cell carries after the `Date` column formatting
step (identity on the impossible non-timestamp cells, which make the
pipeline raise instead). -/
def idxDate (fmt : Timestamp → String) (v : Val) : Val :=
  match v with
  | .time t => .str (fmt t)
  | w => w

/-! ### Concrete frames used by the counterexamples and witnesses -/

/-- Midnight timestamps on consecutive days. -/
def tsJan1 : Timestamp := ⟨2024, 1, 1, 0, 0⟩

def tsJan2 : Timestamp := ⟨2024, 1, 2, 0, 0⟩

/-- A two-row raw batch whose rows arrive in ascending date order. -/
def rawOutOfOrder : RawFrame :=
  ⟨"GradeDate", ["Firm", "ToGrade", "FromGrade", "Action"],
   [(.time tsJan1, [.str "Acme", .str "Buy", .str "Hold", .str "up"]),
    (.time tsJan2, [.str "Bravo", .str "Hold", .str "Buy", .str "down"])]⟩

/-- A two-row raw batch with all optional columns populated, rows in
ascending date order. -/
def rawFull : RawFrame :=
  ⟨"GradeDate",
   ["Firm", "ToGrade", "FromGrade", "Action", "PriceTargetAction",
    "CurrentPriceTarget", "PriorPriceTarget"],
   [(.time ⟨2024, 1, 1, 9, 30⟩,
     [.str "Acme", .str "Buy", .str "Hold", .str "up", .str "up",
      .num 210 0, .num 200 0]),
    (.time ⟨2024, 1, 2, 10, 0⟩,
     [.str "Bravo", .str "Hold", .str "Buy", .str "down", .str "down",
      .null, .str ""])]⟩

/-- A one-row raw batch with every optional field null. -/
def rawNullRow : RawFrame :=
  ⟨"GradeDate",
   ["Firm", "ToGrade", "FromGrade", "Action", "PriceTargetAction",
    "CurrentPriceTarget", "PriorPriceTarget"],
   [(.time tsJan1, [.null, .null, .null, .null, .null, .null, .null])]⟩

/-- A one-row raw batch with a literal `ToGrade` column and an
`action_price_flag` column. -/
def rawC2 : RawFrame :=
  ⟨"GradeDate", ["Firm", "ToGrade", "action_price_flag"],
   [(.time tsJan1, [.str "Acme", .str "Buy", .str "flagv"])]⟩

/-- Fetched dashboard data for one symbol, carrying `rawFull`. -/
def wSymData : List (String × SymbolData) := [("AAPL", ⟨"Apple", rawFull, none⟩)]

/-- Digest fetch outcomes for one symbol, carrying `rawFull`. -/
def wOutcomes : List (String × Except String (Option RawFrame)) :=
  [("AAPL", .ok (some rawFull))]

/-- The combined 24-hour table produced from `wSymData`. -/
def w24out : Frame :=
  ⟨["Symbol", "Date", "Firm", "Action", "To Grade", "From Grade",
    "Price Target Action", "Current Price Target", "Prior Price Target"],
   [[.str "AAPL", .str "2024-01-02 10:00", .str "Bravo", .str "Downgrade",
     .str "Hold", .str "Buy", .str "Lowers", .str "N/A", .str "N/A"],
    [.str "AAPL", .str "2024-01-01 09:30", .str "Acme", .str "Upgrade",
     .str "Buy", .str "Hold", .str "Raises", .str "$210.00", .str "$200.00"]]⟩

/-- The digest table produced from `wOutcomes`. -/
def wDigOut : Frame :=
  ⟨["Symbol", "Date", "Firm", "To Grade", "From Grade", "Action",
    "Price Target Action", "Current Price Target", "Prior Price Target"],
   [[.str "AAPL", .str "2024-01-02 10:00", .str "Bravo", .str "Hold",
     .str "Buy", .str "Downgrade", .str "Lowers", .str "N/A", .str "N/A"],
    [.str "AAPL", .str "2024-01-01 09:30", .str "Acme", .str "Buy",
     .str "Hold", .str "Upgrade", .str "Raises", .str "$210.00", .str "$200.00"]]⟩

/-- The 90-day table produced from `rawOutOfOrder` (input order kept). -/
def w90out : Frame :=
  ⟨["Date", "Firm", "Action", "To Grade", "From Grade"],
   [[.str "2024-01-01", .str "Acme", .str "Upgrade", .str "Buy", .str "Hold"],
    [.str "2024-01-02", .str "Bravo", .str "Downgrade", .str "Hold", .str "Buy"]]⟩

/-- The 90-day table produced from `rawNullRow`. -/
def wNullOut : Frame :=
  ⟨["Date", "Firm", "Action", "To Grade", "From Grade",
    "Price Target Action", "Current Price Target", "Prior Price Target"],
   [[.str "2024-01-01", .null, .null, .null, .null, .null,
     .str "N/A", .str "N/A"]]⟩

/-- The 90-day table produced from `rawC2`. -/
def wC2Out : Frame :=
  ⟨["Date", "Firm", "To Grade"],
   [[.str "2024-01-01", .str "Acme", .str "Buy"]]⟩

/-! ### Generic helper lemmas -/

theorem mapOpt_length {α β : Type} {g : α → Option β} :
    ∀ {l : List α} {l' : List β}, mapOpt g l = some l' → l'.length = l.length := by
  intro l
  induction l with
  | nil =>
    intro l' h
    simp [mapOpt] at h
    simp [← h]
  | cons a t ih =>
    intro l' h
    unfold mapOpt at h
    cases hg : g a with
    | none => rw [hg] at h; simp at h
    | some b =>
      rw [hg] at h
      cases hm : mapOpt g t with
      | none => rw [hm] at h; simp at h
      | some t' =>
        rw [hm] at h
        simp only [Option.some.injEq] at h
        rw [← h]
        simp [ih hm]

theorem mapOpt_forall2 {α β : Type} {g : α → Option β} :
    ∀ {l : List α} {l' : List β}, mapOpt g l = some l' →
      List.Forall₂ (fun a b => g a = some b) l l' := by
  intro l
  induction l with
  | nil =>
    intro l' h
    simp [mapOpt] at h
    simp [← h]
  | cons a t ih =>
    intro l' h
    unfold mapOpt at h
    cases hg : g a with
    | none => rw [hg] at h; simp at h
    | some b =>
      rw [hg] at h
      cases hm : mapOpt g t with
      | none => rw [hm] at h; simp at h
      | some t' =>
        rw [hm] at h
        simp only [Option.some.injEq] at h
        rw [← h]
        exact List.Forall₂.cons hg (ih hm)

theorem mapOpt_map {α β γ : Type} {g : β → Option γ} {h : α → β} :
    ∀ l : List α, mapOpt g (l.map h) = mapOpt (fun a => g (h a)) l := by
  intro l
  induction l with
  | nil => rfl
  | cons a t ih => simp only [List.map_cons, mapOpt, ih]

theorem mapColIf_cols (f : Frame) (n : String) (g : Val → Val) :
    (mapColIf f n g).cols = f.cols := by
  unfold mapColIf
  cases colIdx f n <;> rfl

theorem mapColIf_length (f : Frame) (n : String) (g : Val → Val) :
    (mapColIf f n g).rows.length = f.rows.length := by
  unfold mapColIf
  cases colIdx f n <;> simp

theorem mapColOptIf_eq_some {f f' : Frame} {n : String} {g : Val → Option Val}
    (h : mapColOptIf f n g = some f') :
    f'.cols = f.cols ∧ f'.rows.length = f.rows.length := by
  unfold mapColOptIf at h
  cases hj : colIdx f n with
  | none =>
    rw [hj] at h
    simp only [Option.some.injEq] at h
    rw [← h]
    exact ⟨rfl, rfl⟩
  | some j =>
    rw [hj] at h
    rcases Option.map_eq_some'.mp h with ⟨rows, hrows, hf⟩
    rw [← hf]
    exact ⟨rfl, mapOpt_length hrows⟩

theorem mapColReq_eq_some {f f' : Frame} {n : String} {g : Val → Option Val}
    (h : mapColReq f n g = some f') :
    f'.cols = f.cols ∧ f'.rows.length = f.rows.length := by
  unfold mapColReq at h
  cases hj : colIdx f n with
  | none => rw [hj] at h; simp at h
  | some j =>
    rw [hj] at h
    rcases Option.map_eq_some'.mp h with ⟨rows, hrows, hf⟩
    rw [← hf]
    exact ⟨rfl, mapOpt_length hrows⟩

theorem selectCols_cols (f : Frame) (names : List String) :
    (selectCols f names).cols = names.filter (fun n => f.cols.contains n) := rfl

theorem selectCols_length (f : Frame) (names : List String) :
    (selectCols f names).rows.length = f.rows.length := by
  simp [selectCols]

/-! ### Sorting lemmas -/

theorem lexLe_total : ∀ a b : List Char, lexLe a b = true ∨ lexLe b a = true := by
  intro a
  induction a with
  | nil => intro b; left; rfl
  | cons c s ih =>
    intro b
    cases b with
    | nil => right; rfl
    | cons d t =>
      by_cases h1 : c.val < d.val
      · left; simp [lexLe, h1]
      · by_cases h2 : d.val < c.val
        · right; simp [lexLe, h2]
        · rcases ih t with h | h
          · left; simp [lexLe, h1, h2, h]
          · right; simp [lexLe, h1, h2, h]

theorem strLe_total (a b : String) : strLe a b = true ∨ strLe b a = true :=
  lexLe_total a.data b.data

theorem rowGe_total (j : Nat) (r s : List Val) :
    rowGe j r s = true ∨ rowGe j s r = true :=
  (strLe_total (rowKey j s) (rowKey j r)).imp id id

theorem sortedDescBool_cons {a b : String} {t : List String}
    (hab : strLe b a = true) (ht : sortedDescBool (b :: t) = true) :
    sortedDescBool (a :: b :: t) = true := by
  simp [sortedDescBool, hab, ht]

theorem sortedDescBool_cons_inv {a b : String} {t : List String}
    (h : sortedDescBool (a :: b :: t) = true) :
    strLe b a = true ∧ sortedDescBool (b :: t) = true := by
  simpa [sortedDescBool, Bool.and_eq_true] using h

theorem insert_sorted (j : Nat) (r : List Val) :
    ∀ t : List (List Val), sortedDescBool (t.map (rowKey j)) = true →
      sortedDescBool ((insertRowDesc j r t).map (rowKey j)) = true := by
  intro t
  induction t with
  | nil => intro _; rfl
  | cons s rest ih =>
    intro ht
    unfold insertRowDesc
    by_cases hrs : rowGe j r s = true
    · rw [if_pos hrs]
      simp only [List.map_cons]
      exact sortedDescBool_cons hrs ht
    · rw [if_neg hrs]
      have hsr : rowGe j s r = true := by
        rcases rowGe_total j r s with h | h
        · exact absurd h hrs
        · exact h
      cases rest with
      | nil =>
        simp only [insertRowDesc, List.map_cons, List.map_nil]
        exact sortedDescBool_cons hsr rfl
      | cons u rest' =>
        rcases sortedDescBool_cons_inv (by simpa using ht) with ⟨hus, hurest⟩
        by_cases hru : rowGe j r u = true
        · rw [insertRowDesc, if_pos hru]
          simp only [List.map_cons]
          exact sortedDescBool_cons hsr
            (sortedDescBool_cons hru (by simpa using hurest))
        · rw [insertRowDesc, if_neg hru]
          have hins := ih (by simpa using hurest)
          rw [insertRowDesc, if_neg hru] at hins
          simp only [List.map_cons] at hins ⊢
          have hhead : strLe (rowKey j u) (rowKey j s) = true := hus
          cases hc : (insertRowDesc j r rest').map (rowKey j) with
          | nil => simp [sortedDescBool, hhead]
          | cons x xs =>
            rw [hc] at hins
            exact sortedDescBool_cons hhead hins

theorem sortRows_sorted (j : Nat) (l : List (List Val)) :
    sortedDescBool ((sortRowsDesc j l).map (rowKey j)) = true := by
  induction l with
  | nil => rfl
  | cons r t ih => exact insert_sorted j r _ ih

theorem insert_length (j : Nat) (r : List Val) :
    ∀ t : List (List Val), (insertRowDesc j r t).length = t.length + 1 := by
  intro t
  induction t with
  | nil => rfl
  | cons s rest ih =>
    unfold insertRowDesc
    by_cases hrs : rowGe j r s = true
    · rw [if_pos hrs]; rfl
    · rw [if_neg hrs]; simp [ih]

theorem sortRows_length (j : Nat) (l : List (List Val)) :
    (sortRowsDesc j l).length = l.length := by
  induction l with
  | nil => rfl
  | cons r t ih => simp [sortRowsDesc, insert_length, ih]

theorem sortByDateDesc_eq_some {f f' : Frame} (h : sortByDateDesc f = some f') :
    f'.cols = f.cols ∧ f'.rows.length = f.rows.length ∧
      sortedDescBool (dateStrings f') = true := by
  unfold sortByDateDesc at h
  cases hj : colIdx f "Date" with
  | none => rw [hj] at h; simp at h
  | some j =>
    rw [hj] at h
    simp only [Option.some.injEq] at h
    rw [← h]
    refine ⟨rfl, sortRows_length j f.rows, ?_⟩
    have hj' : colIdx (⟨f.cols, sortRowsDesc j f.rows⟩ : Frame) "Date" = some j := hj
    unfold dateStrings
    rw [hj']
    exact sortRows_sorted j f.rows

/-! ### Pipeline destructuring lemmas -/

theorem process_eq_some {df : RawFrame} {fmt : Timestamp → String} {f : Frame}
    (h : process_actions_for_display df fmt = some f) :
    (df.isEmpty = true ∧ f = Frame.emptyFrame) ∨
    (df.isEmpty = false ∧ ∃ f2 f5 f6 : Frame,
      mapColOptIf (renameCols df.resetIndex) "Date" (toDatetime fmt) = some f2 ∧
      mapColOptIf (mapColIf (mapColIf f2 "Action" (applyCodeMap actionMap))
          "Price Target Action" (applyCodeMap ptActionMap))
        "Current Price Target" formatPrice = some f5 ∧
      mapColOptIf f5 "Prior Price Target" formatPrice = some f6 ∧
      f = selectCols f6 columnOrder) := by
  unfold process_actions_for_display at h
  by_cases he : df.isEmpty = true
  · rw [if_pos he] at h
    exact Or.inl ⟨he, (Option.some_inj.mp h).symm⟩
  · rw [if_neg he] at h
    refine Or.inr ⟨by simpa using he, ?_⟩
    rcases Option.bind_eq_some.mp h with ⟨f2, h2, h'⟩
    rcases Option.bind_eq_some.mp h' with ⟨f5, h5, h''⟩
    rcases Option.map_eq_some'.mp h'' with ⟨f6, h6, hf⟩
    exact ⟨f2, f5, f6, h2, h5, h6, hf.symm⟩

theorem combined24_eq_some {c f : Frame} (h : processCombined24h c = some f) :
    ∃ f2 f5 f6 : Frame,
      mapColOptIf (renameCols24 c) "Date" (toDatetime fmtMinute) = some f2 ∧
      mapColOptIf (mapColIf (mapColIf f2 "Action" (applyCodeMap actionMap))
          "Price Target Action" (applyCodeMap ptActionMap))
        "Current Price Target" formatPrice = some f5 ∧
      mapColOptIf f5 "Prior Price Target" formatPrice = some f6 ∧
      sortByDateDesc (selectCols f6 columnOrder24) = some f := by
  unfold processCombined24h at h
  rcases Option.bind_eq_some.mp h with ⟨f2, h2, h'⟩
  rcases Option.bind_eq_some.mp h' with ⟨f5, h5, h''⟩
  rcases Option.bind_eq_some.mp h'' with ⟨f6, h6, hs⟩
  exact ⟨f2, f5, f6, h2, h5, h6, hs⟩

theorem digestAssemble_eq_some {l : List Frame} {f : Frame}
    (h : digestAssemble l = some f) :
    (l.isEmpty = true ∧ f = Frame.emptyFrame) ∨
    (l.isEmpty = false ∧ ∃ f1 f2 f5 f6 : Frame,
      digestRename (concatFrames l) = some f1 ∧
      mapColReq f1 "Date" (toDatetime fmtMinute) = some f2 ∧
      mapColOptIf (mapColIf (mapColIf f2 "Action" (applyCodeMap actionMap))
          "Price Target Action" (applyCodeMap ptActionMap))
        "Current Price Target" formatPrice = some f5 ∧
      mapColOptIf f5 "Prior Price Target" formatPrice = some f6 ∧
      sortByDateDesc f6 = some f) := by
  unfold digestAssemble at h
  by_cases he : l.isEmpty = true
  · rw [if_pos he] at h
    exact Or.inl ⟨he, (Option.some_inj.mp h).symm⟩
  · rw [if_neg he] at h
    refine Or.inr ⟨by simpa using he, ?_⟩
    rcases Option.bind_eq_some.mp h with ⟨f1, h1, h'⟩
    rcases Option.bind_eq_some.mp h' with ⟨f2, h2, h''⟩
    rcases Option.bind_eq_some.mp h'' with ⟨f5, h5, h'''⟩
    rcases Option.bind_eq_some.mp h''' with ⟨f6, h6, hs⟩
    exact ⟨f1, f2, f5, f6, h1, h2, h5, h6, hs⟩

theorem combined24_sorted {c f : Frame} (h : processCombined24h c = some f) :
    sortedDescBool (dateStrings f) = true := by
  rcases combined24_eq_some h with ⟨f2, f5, f6, -, -, -, hs⟩
  exact (sortByDateDesc_eq_some hs).2.2

theorem tab3_sorted {keep : Val → Bool} {allData : List (String × SymbolData)}
    {f : Frame} (h : tab3Table keep allData = some f) :
    sortedDescBool (dateStrings f) = true := by
  unfold tab3Table at h
  by_cases he : (collect24h keep allData).isEmpty = true
  · rw [if_pos he] at h
    exact absurd h (by simp)
  · rw [if_neg he] at h
    exact combined24_sorted h

theorem digest_sorted {keep : Val → Bool}
    {outcomes : List (String × Except String (Option RawFrame))} {f : Frame}
    (h : get_analyst_actions keep outcomes = some f) :
    sortedDescBool (dateStrings f) = true := by
  rcases digestAssemble_eq_some h with ⟨-, hf⟩ | ⟨-, f1, f2, f5, f6, -, -, -, -, hs⟩
  · rw [hf]; rfl
  · exact (sortByDateDesc_eq_some hs).2.2

/-! ### Head-column (Date) tracking through the 90-day pipeline -/

theorem idxOf?_cons_self (n : String) (t : List String) :
    idxOf? n (n :: t) = some 0 := by
  simp [idxOf?]

theorem idxOf?_cons_ne {c n : String} (h : c ≠ n) (t : List String) :
    idxOf? n (c :: t) = (idxOf? n t).map (· + 1) := by
  simp [idxOf?, h]

theorem idxOf?_cons_ne_succ {c n : String} (h : c ≠ n) {t : List String} {j : Nat}
    (hj : idxOf? n (c :: t) = some j) :
    ∃ k, idxOf? n t = some k ∧ j = k + 1 := by
  rw [idxOf?_cons_ne h] at hj
  rcases Option.map_eq_some'.mp hj with ⟨k, hk, hj'⟩
  exact ⟨k, hk, hj'.symm⟩

theorem getD_set_succ (r : List Val) (k : Nat) (v : Val) :
    (r.set (k + 1) v).getD 0 .null = r.getD 0 .null := by
  cases r <;> rfl

theorem forall2_map_eq {α β γ : Type} {R : α → β → Prop} {pa : α → γ} {pb : β → γ}
    (hR : ∀ a b, R a b → pb b = pa a) :
    ∀ {l : List α} {l' : List β}, List.Forall₂ R l l' → l'.map pb = l.map pa := by
  intro l l' h
  induction h with
  | nil => rfl
  | cons hab _ ih => simp [ih, hR _ _ hab]

theorem mapColIf_headVals {f : Frame} {c0 : String} {rest : List String}
    (hc : f.cols = c0 :: rest) {n : String} (hne : c0 ≠ n) (g : Val → Val) :
    (mapColIf f n g).rows.map (fun r => r.getD 0 .null) =
      f.rows.map (fun r => r.getD 0 .null) := by
  unfold mapColIf
  cases hj : colIdx f n with
  | none => rfl
  | some j =>
    have hj' : idxOf? n (c0 :: rest) = some j := by
      rw [← hc]
      exact hj
    obtain ⟨k, -, rfl⟩ := idxOf?_cons_ne_succ hne hj'
    simp only [List.map_map]
    have : ((fun r => r.getD 0 .null) ∘
        fun r => r.set (k + 1) (g (r.getD (k + 1) .null))) =
        fun r : List Val => r.getD 0 .null := by
      funext r
      exact getD_set_succ r k _
    rw [this]

theorem mapColOptIf_headVals {f f' : Frame} {c0 : String} {rest : List String}
    (hc : f.cols = c0 :: rest) {n : String} (hne : c0 ≠ n) {g : Val → Option Val}
    (h : mapColOptIf f n g = some f') :
    f'.rows.map (fun r => r.getD 0 .null) = f.rows.map (fun r => r.getD 0 .null) := by
  unfold mapColOptIf at h
  cases hj : colIdx f n with
  | none =>
    rw [hj] at h
    rw [← Option.some_inj.mp h]
  | some j =>
    rw [hj] at h
    have hj' : idxOf? n (c0 :: rest) = some j := by
      rw [← hc]
      exact hj
    obtain ⟨k, -, rfl⟩ := idxOf?_cons_ne_succ hne hj'
    rcases Option.map_eq_some'.mp h with ⟨rows, hrows, hf⟩
    rw [← hf]
    refine forall2_map_eq ?_ (mapOpt_forall2 hrows)
    intro a b hab
    rcases Option.map_eq_some'.mp hab with ⟨v, -, hb⟩
    rw [← hb]
    exact getD_set_succ a k v

theorem canonColName_zero (col : String) : canonColName 0 col = "Date" := rfl

theorem renameCols_resetIndex_cols (df : RawFrame) :
    (renameCols df.resetIndex).cols =
      "Date" :: (df.cols.enumFrom 1).map (fun p => canonColName p.1 p.2) := by
  simp [renameCols, RawFrame.resetIndex, List.enum_cons, canonColName_zero]

theorem dateStep_headVals {df : RawFrame} {fmt : Timestamp → String} {f2 : Frame}
    (h : mapColOptIf (renameCols df.resetIndex) "Date" (toDatetime fmt) = some f2) :
    f2.rows.map (fun r => r.getD 0 .null) = df.rows.map (fun p => idxDate fmt p.1) := by
  unfold mapColOptIf at h
  have hc : colIdx (renameCols df.resetIndex) "Date" = some 0 := by
    show idxOf? "Date" (renameCols df.resetIndex).cols = some 0
    rw [renameCols_resetIndex_cols]
    exact idxOf?_cons_self _ _
  rw [hc] at h
  rcases Option.map_eq_some'.mp h with ⟨rows, hrows, hf⟩
  have hrows' : mapOpt
      (fun p : Val × List Val => (toDatetime fmt p.1).map (fun v => v :: p.2))
      df.rows = some rows := by
    have : (renameCols df.resetIndex).rows = df.rows.map (fun p => p.1 :: p.2) := rfl
    rw [this, mapOpt_map] at hrows
    exact hrows
  rw [← hf]
  refine forall2_map_eq ?_ (mapOpt_forall2 hrows')
  intro a b hab
  cases hv : a.1 with
  | time t =>
    rw [hv] at hab
    simp only [toDatetime, Option.map_some'] at hab
    rw [← Option.some_inj.mp hab]
    simp [idxDate, hv]
  | null => rw [hv] at hab; simp [toDatetime] at hab
  | str s => rw [hv] at hab; simp [toDatetime] at hab
  | num m e => rw [hv] at hab; simp [toDatetime] at hab

theorem selectCols_date {f6 : Frame} {rest : List String}
    (hc : f6.cols = "Date" :: rest) :
    colIdx (selectCols f6 columnOrder) "Date" = some 0 ∧
    (selectCols f6 columnOrder).rows.map (fun r => r.getD 0 .null) =
      f6.rows.map (fun r => r.getD 0 .null) := by
  have hcont : f6.cols.contains "Date" = true := by
    rw [hc]
    simp [List.contains_cons]
  have hj0 : colIdx f6 "Date" = some 0 := by
    show idxOf? "Date" f6.cols = some 0
    rw [hc]
    exact idxOf?_cons_self _ _
  have hkeep : columnOrder.filter (fun n => f6.cols.contains n) =
      "Date" :: (["Firm", "Action", "To Grade", "From Grade",
        "Price Target Action", "Current Price Target",
        "Prior Price Target"].filter (fun n => f6.cols.contains n)) := by
    simp only [columnOrder, List.filter_cons, hcont]
    rfl
  constructor
  · show idxOf? "Date" (selectCols f6 columnOrder).cols = some 0
    rw [selectCols_cols, hkeep]
    exact idxOf?_cons_self _ _
  · show (f6.rows.map _).map _ = _
    rw [List.map_map]
    have : ((fun r : List Val => r.getD 0 .null) ∘
        (fun r => (columnOrder.filter (fun n => f6.cols.contains n)).map
          (fun n => match colIdx f6 n with
            | some j => r.getD j .null
            | none => .null))) = fun r : List Val => r.getD 0 .null := by
      funext r
      show ((columnOrder.filter (fun n => f6.cols.contains n)).map
          (fun n => match colIdx f6 n with
            | some j => r.getD j .null
            | none => .null)).getD 0 .null = r.getD 0 .null
      rw [hkeep, List.map_cons]
      show (match colIdx f6 "Date" with
        | some j => r.getD j .null
        | none => Val.null) = r.getD 0 .null
      rw [hj0]
    rw [this]

theorem process_dateStrings {df : RawFrame} {fmt : Timestamp → String} {f : Frame}
    (h : process_actions_for_display df fmt = some f) (he : df.isEmpty = false) :
    dateStrings f = df.rows.map (fun p => dateKey (idxDate fmt p.1)) := by
  rcases process_eq_some h with ⟨he', -⟩ | ⟨-, f2, f5, f6, h2, h5, h6, hf⟩
  · rw [he'] at he
    cases he
  · have hcols1 := renameCols_resetIndex_cols df
    have hc2 : f2.cols = "Date" ::
        (df.cols.enumFrom 1).map (fun p => canonColName p.1 p.2) := by
      rw [(mapColOptIf_eq_some h2).1, hcols1]
    have hc3 : (mapColIf f2 "Action" (applyCodeMap actionMap)).cols =
        "Date" :: (df.cols.enumFrom 1).map (fun p => canonColName p.1 p.2) := by
      rw [mapColIf_cols, hc2]
    have hc4 : (mapColIf (mapColIf f2 "Action" (applyCodeMap actionMap))
        "Price Target Action" (applyCodeMap ptActionMap)).cols =
        "Date" :: (df.cols.enumFrom 1).map (fun p => canonColName p.1 p.2) := by
      rw [mapColIf_cols, hc3]
    have hc5 : f5.cols = "Date" ::
        (df.cols.enumFrom 1).map (fun p => canonColName p.1 p.2) := by
      rw [(mapColOptIf_eq_some h5).1, hc4]
    have hc6 : f6.cols = "Date" ::
        (df.cols.enumFrom 1).map (fun p => canonColName p.1 p.2) := by
      rw [(mapColOptIf_eq_some h6).1, hc5]
    have m6 : f6.rows.map (fun r => r.getD 0 .null) =
        df.rows.map (fun p => idxDate fmt p.1) := by
      rw [mapColOptIf_headVals hc5 (by decide) h6,
        mapColOptIf_headVals hc4 (by decide) h5,
        mapColIf_headVals hc3 (by decide) (applyCodeMap ptActionMap),
        mapColIf_headVals hc2 (by decide) (applyCodeMap actionMap),
        dateStep_headVals h2]
    rcases selectCols_date hc6 with ⟨hj0, hsel⟩
    rw [hf]
    unfold dateStrings
    rw [hj0]
    show (selectCols f6 columnOrder).rows.map (rowKey 0) =
      df.rows.map (fun p => dateKey (idxDate fmt p.1))
    have hcomp : (selectCols f6 columnOrder).rows.map (rowKey 0) =
        ((selectCols f6 columnOrder).rows.map (fun r => r.getD 0 .null)).map dateKey := by
      rw [List.map_map]
      rfl
    rw [hcomp, hsel, m6, List.map_map]
    rfl

theorem digestRename_eq_some {f f' : Frame} (h : digestRename f = some f') :
    f'.rows = f.rows ∧ f'.cols = digestNames.take f.cols.length := by
  unfold digestRename at h
  by_cases hl : f.cols.length ≤ 9
  · rw [if_pos hl] at h
    rw [← Option.some_inj.mp h]
    exact ⟨rfl, rfl⟩
  · rw [if_neg hl] at h
    cases h

/-- C1: on the code, only the combined 24-hour table and the e-mail digest
table are sorted by `Date` descending; `process_actions_for_display` (the
per-symbol 90-day path) applies no sort, so its output keeps the input row
order.  This theorem is the amended claim: the first two conjuncts state
descending `Date` order on the two sorting paths, and the third states
that the 90-day table's `Date` column is exactly the input rows' formatted
dates in input order (no rearrangement). -/
theorem c1_sorted_amended :
    (∀ (keep : Val → Bool) (allData : List (String × SymbolData)) (f : Frame),
        tab3Table keep allData = some f → sortedDescBool (dateStrings f) = true) ∧
    (∀ (keep : Val → Bool)
        (outcomes : List (String × Except String (Option RawFrame))) (f : Frame),
        get_analyst_actions keep outcomes = some f →
        sortedDescBool (dateStrings f) = true) ∧
    (∀ (df : RawFrame) (fmt : Timestamp → String) (f : Frame),
        process_actions_for_display df fmt = some f → df.isEmpty = false →
        dateStrings f = df.rows.map (fun p => dateKey (idxDate fmt p.1))) :=
  ⟨fun _ _ _ h => tab3_sorted h,
   fun _ _ _ h => digest_sorted h,
   fun _ _ _ h he => process_dateStrings h he⟩

/-- C1 witness: the amended claim applied to concrete one-symbol data on
all three paths. -/
theorem c1_sorted_amended_witness :
    sortedDescBool (dateStrings w24out) = true ∧
    sortedDescBool (dateStrings wDigOut) = true ∧
    dateStrings w90out = rawOutOfOrder.rows.map (fun p => dateKey (idxDate fmtDay p.1)) :=
  ⟨c1_sorted_amended.1 (fun _ => true) wSymData w24out (by decide),
   c1_sorted_amended.2.1 (fun _ => true) wOutcomes wDigOut (by decide),
   c1_sorted_amended.2.2 rawOutOfOrder fmtDay w90out (by decide) (by decide)⟩

/-- C1 counterexample: a two-row batch in ascending date order is
presented by `process_actions_for_display` (the per-symbol 90-day path)
with its `Date` column still ascending, so the final presented table is
not sorted by `Date` descending on that path. -/
theorem c1_counterexample :
    process_actions_for_display rawOutOfOrder fmtDay = some w90out ∧
    dateStrings w90out = ["2024-01-01", "2024-01-02"] ∧
    sortedDescBool ["2024-01-01", "2024-01-02"] = false := by decide

/-- C2: column classification applies the priority rules in order with the
first match winning: away from position 0 a column literally named
`ToGrade` maps to `To Grade`; `action_price_flag` (contains both "action"
and "price") matches no rule and passes through under its original name;
the final column selection emits only requested canonical names, and
`action_price_flag` is in neither selection list, so it is dropped — shown
end-to-end on a concrete batch. -/
theorem c2_column_priority :
    (∀ i : Nat, i ≠ 0 → canonColName i "ToGrade" = "To Grade") ∧
    (∀ i : Nat, i ≠ 0 → canonColName i "action_price_flag" = "action_price_flag") ∧
    (∀ (f : Frame) (names : List String) (n : String),
        n ∈ (selectCols f names).cols → n ∈ names) ∧
    ("action_price_flag" ∉ columnOrder ∧ "action_price_flag" ∉ columnOrder24) ∧
    process_actions_for_display rawC2 fmtDay = some wC2Out := by
  refine ⟨?_, ?_, ?_, by decide, by decide⟩
  · intro i hi
    have h0 : (i == 0) = false := by simpa using hi
    simp only [canonColName, h0]
    rfl
  · intro i hi
    have h0 : (i == 0) = false := by simpa using hi
    simp only [canonColName, h0]
    rfl
  · intro f names n hn
    rw [selectCols_cols] at hn
    exact List.mem_of_mem_filter hn

/-- C2 witness: the classification rules and the selection-drop applied at
concrete positions and at the concrete output frame. -/
theorem c2_column_priority_witness :
    canonColName 2 "ToGrade" = "To Grade" ∧
    canonColName 3 "action_price_flag" = "action_price_flag" ∧
    "To Grade" ∈ columnOrder :=
  ⟨c2_column_priority.1 2 (by decide),
   c2_column_priority.2.1 3 (by decide),
   c2_column_priority.2.2.1 wC2Out columnOrder "To Grade" (by decide)⟩

/-- C3 counterexample: a raw row with a null `Firm` keeps the null marker
in the output `Firm` cell — it is not replaced by the string "N/A". -/
theorem c3_counterexample :
    process_actions_for_display rawNullRow fmtDay = some wNullOut ∧
    (wNullOut.rows.getD 0 []).getD 1 .null = Val.null ∧
    Val.null ≠ Val.str "N/A" := by decide

/-- C3 amended: only the two price-target columns replace null (and
empty-string) values by the literal "N/A"; null values in Firm, To Grade,
From Grade, Action and Price Target Action pass through as the null
marker, as the end-to-end run on an all-null row shows. -/
theorem c3_na_amended :
    formatPrice Val.null = some (Val.str "N/A") ∧
    formatPrice (Val.str "") = some (Val.str "N/A") ∧
    applyCodeMap actionMap Val.null = Val.null ∧
    applyCodeMap ptActionMap Val.null = Val.null ∧
    process_actions_for_display rawNullRow fmtDay = some wNullOut := by decide

/-- C4: output columns always appear in the fixed canonical order: the
90-day table's column list is a subsequence of
`Date, Firm, Action, To Grade, From Grade, Price Target Action, Current
Price Target, Prior Price Target` for every input; the combined 24-hour
table's column list is a subsequence of the same order with `Symbol`
first; and the e-mail digest renders its cells in exactly that canonical
order. -/
theorem c4_column_order :
    (∀ (df : RawFrame) (fmt : Timestamp → String) (f : Frame),
        process_actions_for_display df fmt = some f → f.cols.Sublist columnOrder) ∧
    (∀ (keep : Val → Bool) (allData : List (String × SymbolData)) (f : Frame),
        tab3Table keep allData = some f → f.cols.Sublist columnOrder24) ∧
    emailFields = columnOrder24 := by
  refine ⟨?_, ?_, by decide⟩
  · intro df fmt f h
    rcases process_eq_some h with ⟨-, hf⟩ | ⟨-, f2, f5, f6, -, -, -, hf⟩
    · rw [hf]
      exact List.nil_sublist _
    · rw [hf, selectCols_cols]
      exact List.filter_sublist _
  · intro keep allData f h
    unfold tab3Table at h
    by_cases he : (collect24h keep allData).isEmpty = true
    · rw [if_pos he] at h
      cases h
    · rw [if_neg he] at h
      rcases combined24_eq_some h with ⟨f2, f5, f6, -, -, -, hs⟩
      rw [(sortByDateDesc_eq_some hs).1, selectCols_cols]
      exact List.filter_sublist _

/-- C4 witness: the column-order subsequence property at the concrete
outputs of both dashboard paths. -/
theorem c4_column_order_witness :
    w90out.cols.Sublist columnOrder ∧ w24out.cols.Sublist columnOrder24 :=
  ⟨c4_column_order.1 rawOutOfOrder fmtDay w90out (by decide),
   c4_column_order.2.1 (fun _ => true) wSymData w24out (by decide)⟩

/-- C5: the five recognized action codes map to their fixed labels, every
other string code passes through unchanged, and the column transformation
never drops a row or fails. -/
theorem c5_action_codes :
    applyCodeMap actionMap (.str "main") = .str "Maintains" ∧
    applyCodeMap actionMap (.str "up") = .str "Upgrade" ∧
    applyCodeMap actionMap (.str "down") = .str "Downgrade" ∧
    applyCodeMap actionMap (.str "init") = .str "Initiates" ∧
    applyCodeMap actionMap (.str "reit") = .str "Reiterates" ∧
    (∀ s : String, s ∉ ["main", "up", "down", "init", "reit"] →
        applyCodeMap actionMap (.str s) = .str s) ∧
    (∀ (f : Frame) (n : String) (g : Val → Val),
        (mapColIf f n g).rows.length = f.rows.length) := by
  refine ⟨by decide, by decide, by decide, by decide, by decide, ?_,
    fun f n g => mapColIf_length f n g⟩
  intro s hs
  simp only [List.mem_cons, List.not_mem_nil, or_false] at hs
  push_neg at hs
  obtain ⟨h1, h2, h3, h4, h5⟩ := hs
  simp [applyCodeMap, actionMap, h1, h2, h3, h4, h5]

/-- C5 witness: the unrecognized code `"xyz"` passes through, and the
mapping step keeps the row count on a concrete frame. -/
theorem c5_action_codes_witness :
    applyCodeMap actionMap (.str "xyz") = .str "xyz" ∧
    (mapColIf w90out "Action" (applyCodeMap actionMap)).rows.length =
      w90out.rows.length :=
  ⟨c5_action_codes.2.2.2.2.2.1 "xyz" (by decide),
   c5_action_codes.2.2.2.2.2.2 w90out "Action" (applyCodeMap actionMap)⟩

/-- C6: the price-target-action map is a table of its own — the shared
keys `up`, `down`, `init` produce different labels from the action map —
recognized codes map to Raises/Lowers/Announces/Maintains/Reiterates and
unknown codes pass through verbatim. -/
theorem c6_pt_codes :
    applyCodeMap ptActionMap (.str "up") = .str "Raises" ∧
    applyCodeMap ptActionMap (.str "down") = .str "Lowers" ∧
    applyCodeMap ptActionMap (.str "init") = .str "Announces" ∧
    applyCodeMap ptActionMap (.str "main") = .str "Maintains" ∧
    applyCodeMap ptActionMap (.str "reit") = .str "Reiterates" ∧
    (∀ s : String, s ∉ ["up", "down", "init", "main", "reit"] →
        applyCodeMap ptActionMap (.str s) = .str s) ∧
    (applyCodeMap ptActionMap (.str "up") ≠ applyCodeMap actionMap (.str "up") ∧
     applyCodeMap ptActionMap (.str "down") ≠ applyCodeMap actionMap (.str "down") ∧
     applyCodeMap ptActionMap (.str "init") ≠ applyCodeMap actionMap (.str "init")) := by
  refine ⟨by decide, by decide, by decide, by decide, by decide, ?_, by decide⟩
  intro s hs
  simp only [List.mem_cons, List.not_mem_nil, or_false] at hs
  push_neg at hs
  obtain ⟨h1, h2, h3, h4, h5⟩ := hs
  simp [applyCodeMap, ptActionMap, h1, h2, h3, h4, h5]

/-- C6 witness: an unrecognized price-target-action code passes through. -/
theorem c6_pt_codes_witness :
    applyCodeMap ptActionMap (.str "abc") = .str "abc" :=
  c6_pt_codes.2.2.2.2.2.1 "abc" (by decide)

/-- C7: a float price target formats as a dollar sign followed by the
value rendered with exactly two decimal digits (`12.5 → "$12.50"`), and a
null or empty-string cell formats as exactly "N/A". -/
theorem c7_price_format :
    formatPrice (.num 25 1) = some (.str "$12.50") ∧
    formatPrice (.num 210 0) = some (.str "$210.00") ∧
    formatPrice Val.null = some (.str "N/A") ∧
    formatPrice (.str "") = some (.str "N/A") ∧
    (∀ (m : Int) (e : Nat), 0 ≤ m →
        formatPrice (.num m e) =
          some (.str ("$" ++ toString ((centsOf m e).natAbs / 100) ++ "." ++
            pad2 ((centsOf m e).natAbs % 100)))) ∧
    (∀ n : Nat, n < 100 → (pad2 n).length = 2) := by
  refine ⟨by decide, by decide, by decide, by decide, ?_, by decide⟩
  intro m e hm
  have hq : 0 ≤ (100 * m).fdiv (2 ^ e) :=
    Int.fdiv_nonneg (by positivity) (by positivity)
  have hc : 0 ≤ centsOf m e := by
    simp only [centsOf]
    split_ifs <;> linarith [hq]
  show some (Val.str ("$" ++ floatFmt2 m e)) = _
  unfold floatFmt2
  rw [if_neg (not_lt.mpr hc)]
  rfl

/-- C7 witness: the general two-decimal rendering at `12.5` and the
two-digit fraction length at `50`. -/
theorem c7_price_format_witness :
    formatPrice (.num 25 1) =
      some (.str ("$" ++ toString ((centsOf 25 1).natAbs / 100) ++ "." ++
        pad2 ((centsOf 25 1).natAbs % 100))) ∧
    (pad2 50).length = 2 :=
  ⟨c7_price_format.2.2.2.2.1 25 1 (by decide),
   c7_price_format.2.2.2.2.2 50 (by decide)⟩

theorem digestCollect_cons (keep : Val → Bool)
    (p : String × Except String (Option RawFrame))
    (t : List (String × Except String (Option RawFrame))) :
    digestCollect keep (p :: t) =
      (match p.2 with
        | .error _ => []
        | .ok none => []
        | .ok (some actions) =>
          if actions.isEmpty then []
          else
            let recent := filterRecent keep actions
            if recent.isEmpty then [] else [withSymbol p.1 recent]) ++
        digestCollect keep t := by
  simp [digestCollect]

/-- C8: an empty batch yields an empty table on every path, never an
error: an empty raw frame short-circuits `process_actions_for_display`,
and the digest returns an empty frame when every fetched frame is empty or
when the window filter removes every row. -/
theorem c8_empty :
    (∀ (df : RawFrame) (fmt : Timestamp → String), df.rows = [] →
        process_actions_for_display df fmt = some Frame.emptyFrame) ∧
    (∀ (keep : Val → Bool)
        (outcomes : List (String × Except String (Option RawFrame))),
        (∀ p ∈ outcomes, ∀ rf : RawFrame, p.2 = Except.ok (some rf) →
          rf.rows = []) →
        get_analyst_actions keep outcomes = some Frame.emptyFrame) ∧
    (∀ outcomes : List (String × Except String (Option RawFrame)),
        get_analyst_actions (fun _ => false) outcomes = some Frame.emptyFrame) := by
  refine ⟨?_, ?_, ?_⟩
  · intro df fmt hr
    have he : df.isEmpty = true := by
      simp [RawFrame.isEmpty, hr]
    unfold process_actions_for_display
    rw [if_pos he]
  · intro keep outcomes hall
    show digestAssemble (digestCollect keep outcomes) = some Frame.emptyFrame
    have hcol : digestCollect keep outcomes = [] := by
      induction outcomes with
      | nil => rfl
      | cons p t ih =>
        rw [digestCollect_cons]
        have ht : digestCollect keep t = [] :=
          ih (fun q hq => hall q (List.mem_cons_of_mem p hq))
        rw [ht]
        rcases p with ⟨s, r⟩
        cases r with
        | error e => rfl
        | ok a =>
          cases a with
          | none => rfl
          | some rf =>
            have hrf : rf.rows = [] := hall (s, .ok (some rf)) (List.mem_cons_self _ _) rf rfl
            have : rf.isEmpty = true := by simp [RawFrame.isEmpty, hrf]
            simp [this]
    rw [hcol]
    rfl
  · intro outcomes
    show digestAssemble (digestCollect (fun _ => false) outcomes) = some Frame.emptyFrame
    have hcol : digestCollect (fun _ => false) outcomes = [] := by
      induction outcomes with
      | nil => rfl
      | cons p t ih =>
        rw [digestCollect_cons, ih]
        rcases p with ⟨s, r⟩
        cases r with
        | error e => rfl
        | ok a =>
          cases a with
          | none => rfl
          | some rf =>
            have hrec : (filterRecent (fun _ => false) rf).isEmpty = true := by
              simp [filterRecent, RawFrame.isEmpty]
            by_cases hrf : rf.isEmpty = true
            · simp [hrf]
            · simp [hrf, hrec]
    rw [hcol]
    rfl

/-- C8 witness: an empty raw batch, a batch whose only fetched frame is
empty, and a window filter that removes everything, each yield the empty
table. -/
theorem c8_empty_witness :
    process_actions_for_display RawFrame.emptyFrame fmtDay = some Frame.emptyFrame ∧
    get_analyst_actions (fun _ => true)
      [("AAPL", Except.ok (some RawFrame.emptyFrame))] = some Frame.emptyFrame ∧
    get_analyst_actions (fun _ => false) wOutcomes = some Frame.emptyFrame :=
  ⟨c8_empty.1 RawFrame.emptyFrame fmtDay rfl,
   c8_empty.2.1 (fun _ => true) [("AAPL", Except.ok (some RawFrame.emptyFrame))]
     (by
       intro p hp rf hrf
       simp only [List.mem_singleton] at hp
       subst hp
       simp only [Except.ok.injEq, Option.some.injEq] at hrf
       rw [← hrf]
       rfl),
   c8_empty.2.2 wOutcomes⟩

/-- C9 amended: both fetch loops catch a per-symbol failure and continue
with the remaining symbols.  The dashboard fetcher records, for the failed
symbol, an empty frame together with the error message, leaving every
other symbol's entry unchanged; the digest fetcher merely skips the failed
symbol — its returned table is the same as if the symbol had not been in
the list, with no recorded error value. -/
theorem c9_fetch_isolation_amended :
    (∀ outcomes : List (String × Except String (String × Option RawFrame)),
        (fetch_all_analyst_actions outcomes).map Prod.fst = outcomes.map Prod.fst) ∧
    (∀ (pre post : List (String × Except String (String × Option RawFrame)))
        (sym e : String),
        fetch_all_analyst_actions (pre ++ (sym, Except.error e) :: post) =
          fetch_all_analyst_actions pre ++
            (sym, ⟨sym, RawFrame.emptyFrame, some e⟩) ::
              fetch_all_analyst_actions post) ∧
    (∀ (keep : Val → Bool)
        (pre post : List (String × Except String (Option RawFrame)))
        (sym e : String),
        get_analyst_actions keep (pre ++ (sym, Except.error e) :: post) =
          get_analyst_actions keep (pre ++ post)) := by
  refine ⟨?_, ?_, ?_⟩
  · intro outcomes
    induction outcomes with
    | nil => rfl
    | cons p t ih =>
      rcases p with ⟨s, r⟩
      cases r with
      | ok a =>
        rcases a with ⟨nm, acts⟩
        simpa [fetch_all_analyst_actions] using ih
      | error e =>
        simpa [fetch_all_analyst_actions] using ih
  · intro pre post sym e
    simp [fetch_all_analyst_actions]
  · intro keep pre post sym e
    show digestAssemble (digestCollect keep (pre ++ (sym, Except.error e) :: post)) =
      digestAssemble (digestCollect keep (pre ++ post))
    congr 1
    simp [digestCollect, List.map_append]

/-- C9 counterexample: in the digest path a failing symbol leaves no trace
in the returned value — the run with one failing symbol returns the bare
empty frame, identical to the run with no symbols at all, so no empty
result carrying the error message is recorded. -/
theorem c9_counterexample :
    get_analyst_actions (fun _ => true) [("AAPL", Except.error "boom")] =
      some Frame.emptyFrame ∧
    get_analyst_actions (fun _ => true) [] = some Frame.emptyFrame := by decide

/-- C10: normalization preserves the row count on every path: the 90-day
pipeline, the combined 24-hour processing, and the digest assembly (after
concatenation) each return exactly one row per input row whenever they
succeed on a non-empty batch. -/
theorem c10_row_count :
    (∀ (df : RawFrame) (fmt : Timestamp → String) (f : Frame),
        process_actions_for_display df fmt = some f → df.isEmpty = false →
        f.rows.length = df.rows.length) ∧
    (∀ c f : Frame, processCombined24h c = some f →
        f.rows.length = c.rows.length) ∧
    (∀ (l : List Frame) (f : Frame), digestAssemble l = some f →
        l.isEmpty = false → f.rows.length = (concatFrames l).rows.length) := by
  refine ⟨?_, ?_, ?_⟩
  · intro df fmt f h he
    rcases process_eq_some h with ⟨he', -⟩ | ⟨-, f2, f5, f6, h2, h5, h6, hf⟩
    · rw [he'] at he
      cases he
    · rw [hf, selectCols_length, (mapColOptIf_eq_some h6).2,
        (mapColOptIf_eq_some h5).2, mapColIf_length, mapColIf_length,
        (mapColOptIf_eq_some h2).2]
      simp [renameCols, RawFrame.resetIndex]
  · intro c f h
    rcases combined24_eq_some h with ⟨f2, f5, f6, h2, h5, h6, hs⟩
    rw [(sortByDateDesc_eq_some hs).2.1, selectCols_length,
      (mapColOptIf_eq_some h6).2, (mapColOptIf_eq_some h5).2,
      mapColIf_length, mapColIf_length, (mapColOptIf_eq_some h2).2]
    rfl
  · intro l f h hl
    rcases digestAssemble_eq_some h with ⟨he', -⟩ | ⟨-, f1, f2, f5, f6, h1, h2, h5, h6, hs⟩
    · rw [he'] at hl
      cases hl
    · rw [(sortByDateDesc_eq_some hs).2.1, (mapColOptIf_eq_some h6).2,
        (mapColOptIf_eq_some h5).2, mapColIf_length, mapColIf_length,
        (mapColReq_eq_some h2).2, (digestRename_eq_some h1).1]

/-- C10 witness: row counts preserved on the three concrete runs. -/
theorem c10_row_count_witness :
    w90out.rows.length = rawOutOfOrder.rows.length ∧
    w24out.rows.length = (withSymbol "AAPL" rawFull).rows.length ∧
    wDigOut.rows.length = (concatFrames [withSymbol "AAPL" rawFull]).rows.length :=
  ⟨c10_row_count.1 rawOutOfOrder fmtDay w90out (by decide) (by decide),
   c10_row_count.2.1 (withSymbol "AAPL" rawFull) w24out (by decide),
   c10_row_count.2.2 [withSymbol "AAPL" rawFull] wDigOut (by decide) (by decide)⟩
